import Mathlib

/-!
Verification of the OFS core: the reflective JSON serializer
(`OFS-lib/OFS_Serialization.h`) and the application-shell operations
(`src/OpenFunscripter.cpp`).

The serializer is a set of C++ templates dispatching at compile time on
the static shape of the target type (json-compatible primitive /
reflected object / container).  Each template is embedded as a Lean
function that takes the instantiation-dependent callee
(`OFS::Serializer::Serialize<T>` / `Deserialize<T>` at the member or
element type) as a function argument, exactly the way the template text
refers to it; the concrete Timeline instantiation is then built by
composing these, as template instantiation does.  JSON documents
(nlohmann::json) are the inductive `Json`.

All `Deserialize` paths are `noexcept` in the source; `nlohmann::json::get<T>`
throws `type_error` on a type mismatch, and an exception escaping a
`noexcept` function calls `std::terminate`.  That abnormal termination is
modelled as the explicit fault `Fault.typeMismatch` which propagates
outward (nothing can catch it).  The unchecked `obj[idx++]` write of the
`std::array` overload of `deserializeContainerItems` is undefined behavior
when `idx` reaches the array size; its out-of-bounds branch is the fault
`Fault.oobWrite`.
-/

/-- nlohmann::json value (binary payloads never occur:
`EnableBinaryOptimization = false` in the source, so the
`is_binary`/`binary_t` branches are compile-time eliminated). -/
inductive Json where
  | null
  | bool (b : Bool)
  | num (n : Int)
  | str (s : String)
  | arr (items : List Json)
  | obj (fields : List (String × Json))

/-- Abnormal termination of the deserializer: `typeMismatch` is a
`nlohmann::json::type_error` thrown inside a `noexcept` function
(`std::terminate`); `oobWrite` is the out-of-bounds `std::array` write
(undefined behavior in C++, an explicit branch in this total embedding). -/
inductive Fault where
  | typeMismatch
  | oobWrite
deriving DecidableEq, Repr

/-- The result of a `Deserialize<T>` instantiation: the written value, the
returned `bool`, and the warnings logged — unless the walk terminated. -/
abbrev DeserRes (α : Type) : Type := Except Fault (α × Bool × List String)

/-- `json.get<IntType>()`: ok on a JSON number, otherwise throws
`type_error` (modelled as the fault). -/
def getIntJson : Json → Except Fault Int
  | .num n => .ok n
  | _ => .error .typeMismatch

/-- `json.get<std::string>()`. -/
def getStrJson : Json → Except Fault String
  | .str s => .ok s
  | _ => .error .typeMismatch

/-- `json.get<bool>()`. -/
def getBoolJson : Json → Except Fault Bool
  | .bool b => .ok b
  | _ => .error .typeMismatch

/-- `objectJson.contains(key)`: false whenever the json is not an object. -/
def jsonContains (j : Json) (key : String) : Bool :=
  match j with
  | .obj fields => fields.any (fun f => f.1 == key)
  | _ => false

/-- `objectJson[key]` (const), only reached after `contains(key)`. -/
def jsonAt (j : Json) (key : String) : Json :=
  match j with
  | .obj fields => ((fields.find? (fun f => f.1 == key)).map (fun f => f.2)).getD .null
  | _ => .null

/-- The elements visited by `for (auto& jsonItem : jsonArray)`:
an array yields its items, an object its values, null nothing, and a
primitive yields itself once (nlohmann iteration semantics). -/
def jsonElements : Json → List Json
  | .arr items => items
  | .obj fields => fields.map (fun f => f.2)
  | .null => []
  | v => [v]

/-- `LOGF_WARN("The field \"%s\" was not found.", name)`. -/
def fieldNotFoundWarning (name : String) : String :=
  "The field \"" ++ name ++ "\" was not found."

/-- `OFS::Serializer::Serialize<T>` for a json-compatible integer type
(`is_json_compatible` branch): `json = obj; return true;`. -/
def SerializeInt (obj : Int) : Json × Bool := (.num obj, true)

/-- `Serialize<std::string>`. -/
def SerializeStr (obj : String) : Json × Bool := (.str obj, true)

/-- `Serialize<bool>`. -/
def SerializeBool (obj : Bool) : Json × Bool := (.bool obj, true)

/-- `OFS::Serializer::Deserialize<T>` for a json-compatible integer type:
`obj = std::move(json.get<Type>()); return true;` — a json type mismatch
throws inside the `noexcept` function. -/
def DeserializeInt (_obj : Int) (json : Json) : DeserRes Int :=
  match getIntJson json with
  | .ok n => .ok (n, true, [])
  | .error f => .error f

/-- `Deserialize<std::string>`. -/
def DeserializeStr (_obj : String) (json : Json) : DeserRes String :=
  match getStrJson json with
  | .ok s => .ok (s, true, [])
  | .error f => .error f

/-- `Deserialize<bool>`. -/
def DeserializeBool (_obj : Bool) (json : Json) : DeserRes Bool :=
  match getBoolJson json with
  | .ok b => .ok (b, true, [])
  | .error f => .error f

/-- The `serializeEnum` branch of the member loop in `serializeObject`
(lines 191-197): `auto enumValue = static_cast<EnumType>(memberRef);
Serialize(enumValue, currentJson);` — the enum is written as its
underlying integer (values are represented by their underlying integer;
the `static_cast` preserves the value). -/
def serializeEnumMember (memberRef : Int) : Json × Bool :=
  SerializeInt memberRef

/-- The `serializeEnum` branch of the member loop in `deserializeObject`
(lines 102-109): the underlying integer is read back
(`Deserialize(enumValue, currentJson)`) and cast directly to the enum
type (`memberRef = static_cast<MemberType>(enumValue)`) — no check that
the integer is a declared enumerator. -/
def deserializeEnumMember (memberRef : Int) (currentJson : Json) : DeserRes Int :=
  match DeserializeInt memberRef currentJson with
  | .error f => .error f
  | .ok r => .ok (r.1, r.2.1, r.2.2)

/-- The body of the `for_each` lambda in `deserializeObject` for one
member: if the json object contains the member's display name, the
sub-document is deserialized into the member by the member's
`Deserialize` instantiation; otherwise a warning is logged, the member
keeps its current (default-constructed) value, and the walk continues
successfully. -/
def deserializeMember {μ : Type} (name : String)
    (deserMember : μ → Json → DeserRes μ) (memberRef : μ) (objectJson : Json) :
    DeserRes μ :=
  if jsonContains objectJson name then
    deserMember memberRef (jsonAt objectJson name)
  else
    .ok (memberRef, true, [fieldNotFoundWarning name])

/-- `OFS::Serializer::deserializeObject` — the `for_each` over the
reflected member list, aggregating each member's success flag into
`successful` without stopping the iteration.  Each entry of `fields`
carries the member's display name and its `Deserialize` instantiation;
`vals` lists the current member values positionally. -/
def deserializeObject {μ : Type}
    (fields : List (String × (μ → Json → DeserRes μ))) (vals : List μ)
    (objectJson : Json) : Except Fault (List μ × Bool × List String) :=
  match fields, vals with
  | (name, deserMember) :: fields, v :: vals =>
    match deserializeMember name deserMember v objectJson with
    | .error f => .error f
    | .ok m =>
      match deserializeObject fields vals objectJson with
      | .error f => .error f
      | .ok rest => .ok (m.1 :: rest.1, m.2.1 && rest.2.1, m.2.2 ++ rest.2.2)
  | _, _ => .ok ([], true, [])

/-- `OFS::Serializer::serializeObject` — the `for_each` over the reflected
member list: every member is serialized under its display name into
`objectJson[name]`; failures are aggregated into `successful` without
stopping the iteration.  Each entry of `members` carries the member's
display name and its `Serialize` instantiation applied to the object. -/
def serializeObject {β : Type} (members : List (String × (β → Json × Bool)))
    (objectRef : β) : List (String × Json) × Bool :=
  match members with
  | [] => ([], true)
  | (name, serMember) :: members =>
    let m := serMember objectRef
    let rest := serializeObject members objectRef
    ((name, m.1) :: rest.1, m.2 && rest.2)

/-- `OFS::Serializer::serializeContainerItems` — both the `std::vector`
and the `std::array` overloads have this same loop (the binary
optimization branch is disabled): `jsonArray.emplace_back()` appends a
slot, the item is serialized into it by `Serialize<ItemType>`, and
`if (!succ) return false;` stops at the first failing item.  The second
list argument is the `jsonArray` accumulated so far. -/
def serializeContainerItems {α : Type} (serializeItem : α → Json × Bool) :
    List α → List Json → List Json × Bool
  | [], jsonArray => (jsonArray, true)
  | item :: rest, jsonArray =>
    let r := serializeItem item
    if !r.2 then (jsonArray ++ [r.1], false)
    else serializeContainerItems serializeItem rest (jsonArray ++ [r.1])

/-- `OFS::Serializer::deserializeContainerItems` (`std::vector` overload):
`obj.emplace_back()` default-constructs a new item, the json item is
deserialized into it by `Deserialize<ItemType>`, and the loop returns
false at the first failing item, keeping everything appended so far.  The
destination is never cleared. -/
def deserializeContainerItemsVec {α : Type} (defaultItem : α)
    (deserializeItem : α → Json → DeserRes α) (obj : List α) :
    List Json → Except Fault (List α × Bool × List String)
  | [] => .ok (obj, true, [])
  | jsonItem :: rest =>
    match deserializeItem defaultItem jsonItem with
    | .error f => .error f
    | .ok r =>
      if r.2.1 then
        match deserializeContainerItemsVec defaultItem deserializeItem (obj ++ [r.1]) rest with
        | .error f => .error f
        | .ok tail => .ok (tail.1, tail.2.1, r.2.2 ++ tail.2.2)
      else
        .ok (obj ++ [r.1], false, r.2.2)

/-- `OFS::Serializer::deserializeContainerItems` (`std::array` overload):
`auto& item = obj[idx++]` reads the slot at an unchecked incrementing
index — past the end of the array this is the out-of-bounds fault — the
json item is deserialized into the slot, and the loop returns false at the
first failing item. -/
def deserializeContainerItemsArr {α : Type}
    (deserializeItem : α → Json → DeserRes α) (obj : List α) (idx : Nat) :
    List Json → Except Fault (List α × Bool × List String)
  | [] => .ok (obj, true, [])
  | jsonItem :: rest =>
    if h : idx < obj.length then
      match deserializeItem (obj.get ⟨idx, h⟩) jsonItem with
      | .error f => .error f
      | .ok r =>
        if r.2.1 then
          match deserializeContainerItemsArr deserializeItem (obj.set idx r.1) (idx + 1) rest with
          | .error f => .error f
          | .ok tail => .ok (tail.1, tail.2.1, r.2.2 ++ tail.2.2)
        else
          .ok (obj.set idx r.1, false, r.2.2)
    else
      .error .oobWrite

/-!  The Timeline model payload the serializer persists, and the concrete
template instantiations that persist it. -/

/-- Modelled from the spec: the Action value type (Funscript.h is not in
`src/`) — "`at` (integer milliseconds, timestamp)" and "`pos` (integer
0–100)".  The in-memory field `at` is written here as `atMs` (`at` is a
Lean keyword); the serialized display names are the strings "at" and
"pos". -/
structure FunscriptAction where
  atMs : Int
  pos : Int
deriving DecidableEq, Repr

/-- `emplace_back()` / default construction of an Action:
value-initialized integer members. -/
def defaultFunscriptAction : FunscriptAction := ⟨0, 0⟩

/-- Modelled from the spec: the reflected member list of an Action — the
members "at" and "pos", each an `int32_t` serialized by
`Serialize<int32_t>`. -/
def serializeActionMembers : List (String × (FunscriptAction → Json × Bool)) :=
  [("at", fun a => SerializeInt a.atMs), ("pos", fun a => SerializeInt a.pos)]

/-- `Serialize<FunscriptAction>` — the reflected-object branch of
`Serialize` at the Action type: `serializeObject` over the member list,
written into a json object. -/
def SerializeFunscriptAction (a : FunscriptAction) : Json × Bool :=
  let r := serializeObject serializeActionMembers a
  (.obj r.1, r.2)

/-- `Deserialize<FunscriptAction>` — the reflected-object branch of
`Deserialize` at the Action type: `deserializeObject` over the members
"at" and "pos" (both `int32_t`, so the positional member-value list is a
list of integers), the in-place member writes reassembled into the
struct. -/
def DeserializeFunscriptAction (objectRef : FunscriptAction) (json : Json) :
    DeserRes FunscriptAction :=
  match deserializeObject [("at", DeserializeInt), ("pos", DeserializeInt)]
      [objectRef.atMs, objectRef.pos] json with
  | .error f => .error f
  | .ok (vals, succ, ws) =>
    .ok (⟨vals.getD 0 objectRef.atMs, vals.getD 1 objectRef.pos⟩, succ, ws)

/-- `Serialize<std::vector<FunscriptAction>>` — the container branch:
`auto jsonArray = nlohmann::json::array(); serializeContainerItems(...);
json = std::move(jsonArray);`. -/
def SerializeActionVec (obj : List FunscriptAction) : Json × Bool :=
  let jsonArray := serializeContainerItems SerializeFunscriptAction obj []
  (.arr jsonArray.1, jsonArray.2)

/-- `Deserialize<std::vector<FunscriptAction>>` — the container branch:
`deserializeContainerItems` over the json's elements. -/
def DeserializeActionVec (obj : List FunscriptAction) (json : Json) :
    DeserRes (List FunscriptAction) :=
  deserializeContainerItemsVec defaultFunscriptAction DeserializeFunscriptAction
    obj (jsonElements json)

/-- Modelled from the spec: the Timeline's serialized shape (Funscript.h
is not in `src/`) — "a JSON document whose top-level object mirrors the
Timeline's declared fields, notably an `actions` array of `{at, pos}`
objects".  `Serialize<Funscript>` is the reflected-object branch over
that member list; the Timeline value is its action sequence. -/
def SerializeTimeline (actions : List FunscriptAction) : Json × Bool :=
  let r := serializeObject [("actions", SerializeActionVec)] actions
  (.obj r.1, r.2)

/-- `Deserialize<Funscript>` — the reflected-object branch at the
Timeline type ("actions" is the member of interest; the positional
member-value list holds the action sequence). -/
def DeserializeTimeline (actions : List FunscriptAction) (json : Json) :
    DeserRes (List FunscriptAction) :=
  match deserializeObject [("actions", DeserializeActionVec)] [actions] json with
  | .error f => .error f
  | .ok (vals, succ, ws) => .ok (vals.getD 0 [], succ, ws)

/-- A valid Timeline value: actions unique by `at` and sorted ascending
(hence strictly increasing timestamps), fields in range. -/
def ValidTimeline (actions : List FunscriptAction) : Prop :=
  List.Pairwise (fun a b => a.atMs < b.atMs) actions ∧
    ∀ a ∈ actions, 0 ≤ a.atMs ∧ 0 ≤ a.pos ∧ a.pos ≤ 100

instance (actions : List FunscriptAction) : Decidable (ValidTimeline actions) :=
  inferInstanceAs (Decidable
    (List.Pairwise (fun a b : FunscriptAction => a.atMs < b.atMs) actions ∧
      ∀ a ∈ actions, 0 ≤ a.atMs ∧ 0 ≤ a.pos ∧ a.pos ≤ 100))

/-!
The application shell's mutating operations (`OpenFunscripter.cpp`).
Each operation is embedded as the trace of the calls it makes on the
undo/redo system and on the Timeline, in program order.  The external
collaborators (current playback position, frame time, selection state,
hit test result, clipboard) appear as arguments.
-/

/-- The Timeline-mutating calls the shell can issue. -/
inductive TimelineMutation where
  | removeAction
  | removeSelectedActions
  | addEditAction
  | pasteAction
  | moveSelectionTime
  | moveSelectionPosition
deriving DecidableEq, Repr

/-- One observable call of a shell operation: an
`undoRedoSystem.Snapshot(label)`, a Timeline mutation, or some other call
that touches neither the undo log nor the action sequence
(`copySelection`'s clipboard writes, `setPosition`). -/
inductive ShellEvent where
  | snapshot (label : String)
  | mutate (m : TimelineMutation)
  | other
deriving DecidableEq, Repr

/-- `OpenFunscripter::removeAction(const FunscriptAction&)`. -/
def removeActionExplicitTrace : List ShellEvent :=
  [.snapshot "Remove action", .mutate .removeAction]

/-- `OpenFunscripter::removeAction()` — the selection branch snapshots and
removes the selection; otherwise the action under the cursor (the hit-test
result `actionAtTime`) is removed via the explicit overload, which
snapshots inside. -/
def removeActionTrace (hasSelection : Bool)
    (actionAtTime : Option FunscriptAction) : List ShellEvent :=
  if hasSelection then
    [.snapshot "Removed selection", .mutate .removeSelectedActions]
  else
    match actionAtTime with
    | some _ => removeActionExplicitTrace
    | none => []

/-- `OpenFunscripter::addEditAction(int pos)`. -/
def addEditActionTrace : List ShellEvent :=
  [.snapshot "Add/Edit Action", .mutate .addEditAction]

/-- `OpenFunscripter::copySelection()` — clipboard only, no Timeline
mutation and no snapshot. -/
def copySelectionTrace (hasSelection : Bool) : List ShellEvent :=
  if hasSelection then [.other] else []

/-- `OpenFunscripter::cutSelection()`. -/
def cutSelectionTrace (hasSelection : Bool) : List ShellEvent :=
  if hasSelection then
    copySelectionTrace hasSelection ++
      [.snapshot "Cut selection", .mutate .removeSelectedActions]
  else []

/-- `OpenFunscripter::pasteSelection()` — returns early on an empty
clipboard, else snapshots once and pastes every copied action, then moves
the playback position. -/
def pasteSelectionTrace (copiedSelection : List FunscriptAction) : List ShellEvent :=
  if copiedSelection.length = 0 then []
  else
    .snapshot "Paste copied actions" ::
      (copiedSelection.map (fun _ => ShellEvent.mutate .pasteAction) ++ [.other])

/-- The "move_selection_left" key binding. -/
def moveSelectionLeftTrace : List ShellEvent :=
  [.snapshot "Selection moved", .mutate .moveSelectionTime]

/-- The "move_selection_right" key binding. -/
def moveSelectionRightTrace : List ShellEvent :=
  [.snapshot "Selection moved", .mutate .moveSelectionTime]

/-- The "move_selection_up" key binding. -/
def moveSelectionUpTrace : List ShellEvent :=
  [.snapshot "Selection moved", .mutate .moveSelectionPosition]

/-- The "move_selection_down" key binding. -/
def moveSelectionDownTrace : List ShellEvent :=
  [.snapshot "Selection moved", .mutate .moveSelectionPosition]

/-- Whether an event is a `Snapshot` call. -/
def isSnapshotEvt : ShellEvent → Bool
  | .snapshot _ => true
  | _ => false

/-- Whether an event is a Timeline mutation. -/
def isMutationEvt : ShellEvent → Bool
  | .mutate _ => true
  | _ => false

/-- Every Timeline mutation in the trace is preceded by some Snapshot
call: the undo log stores pre-states. -/
def snapshotBeforeMutation (tr : List ShellEvent) : Prop :=
  ∀ i < tr.length, isMutationEvt (tr.getD i .other) = true →
    ∃ j < i, isSnapshotEvt (tr.getD j .other) = true

instance (tr : List ShellEvent) : Decidable (snapshotBeforeMutation tr) := by
  unfold snapshotBeforeMutation; infer_instance

/-!  `OpenFunscripter::openFunscript` and the undo/redo history. -/

/-- The shell state `openFunscript` touches: the live Timeline's action
sequence (owned by `LoadedFunscript`) and the undo/redo stacks of
`undoRedoSystem` (labelled deep-copy snapshots). -/
structure AppState where
  loadedFunscript : List FunscriptAction
  undoStack : List (String × List FunscriptAction)
  redoStack : List (String × List FunscriptAction)
deriving DecidableEq, Repr

/-- Modelled from the spec: `UndoRedoSystem::ClearHistory`
(UndoRedoSystem.cpp is not in `src/`) — "empties both stacks". -/
def ClearHistory (s : AppState) : AppState :=
  { s with undoStack := [], redoStack := [] }

/-- `OpenFunscripter::openFunscript(const std::string& file)`:
`LoadedFunscript = std::make_unique<Funscript>()` replaces the live
Timeline with a fresh empty one, `undoRedoSystem.ClearHistory()` empties
both stacks, and only then is the file looked at — a missing file returns
false, otherwise `Funscript::open` (not in `src/`, abstracted as its
result `openResult`: the loaded action sequence and its success flag)
fills the fresh Timeline. -/
def openFunscript (s : AppState) (fileExists : Bool)
    (openResult : Bool × List FunscriptAction) : AppState × Bool :=
  let s₁ : AppState := { s with loadedFunscript := [] }
  let s₂ := ClearHistory s₁
  if !fileExists then (s₂, false)
  else ({ s₂ with loadedFunscript := openResult.2 }, openResult.1)

/-!
`OpenFunscripter::UpdateTimelineGradient`.  The C++ arithmetic is on
IEEE `float`; it is embedded over `ℚ` (exact arithmetic with the same
constants).  A color is an (r, g, b) triple scaled to [0,1] (the alpha
channel is constantly 0xFF).
-/

/-- An RGB color with channels in [0,1]. -/
abbrev HeatRGB : Type := ℚ × ℚ × ℚ

/-- Linear interpolation between two colors. -/
def lerpColor (c₁ c₂ : HeatRGB) (s : ℚ) : HeatRGB :=
  (c₁.1 + (c₂.1 - c₁.1) * s,
   c₁.2.1 + (c₂.2.1 - c₁.2.1) * s,
   c₁.2.2 + (c₂.2.2 - c₁.2.2) * s)

/-- The six heatmap colors (`heatColor` in the source): black, dodger blue
0x1E90FF, cyan, green, yellow, red; marks equally spaced 1/5 apart. -/
def heatColor : List HeatRGB :=
  [(0, 0, 0), (30/255, 144/255, 1), (0, 1, 1), (0, 1, 0), (1, 1, 0), (1, 0, 0)]

/-- Modelled from the spec: `ImGradient::computeColorAt` (GradientBar.h is
not in `src/`) — "maps the normalized density through a fixed 6-color ramp
(black → blue → cyan → green → yellow → red)": piecewise-linear
interpolation between the six equally spaced marks of `heatColor`. -/
def computeColorAt (t : ℚ) : HeatRGB :=
  let t := max 0 (min 1 t)
  let k : ℕ := min 4 (Int.toNat ⌊t * 5⌋)
  lerpColor (heatColor.getD k (0, 0, 0)) (heatColor.getD (k + 1) (0, 0, 0)) (t * 5 - k)

/-- `Util::Clamp(v, 0, 1)`. -/
def clamp01 (v : ℚ) : ℚ := max 0 (min 1 v)

/-- The `at` of `(Actions().end() - 1)` — the last action's timestamp
(only read when the sequence is non-empty). -/
def lastActionAt (actions : List FunscriptAction) : Int :=
  (actions.getLast?.map (fun a => a.atMs)).getD 0

/-- The inner counting loop over the (sorted) action sequence: an action
inside `[kernel_start, kernel_end]` is counted, the first action past
`kernel_end` breaks the loop, anything before the window is skipped. -/
def actionsInKernelCount (actions : List FunscriptAction)
    (kernelStart kernelEnd : ℚ) : ℕ :=
  match actions with
  | [] => 0
  | a :: rest =>
    if kernelStart ≤ (a.atMs : ℚ) ∧ (a.atMs : ℚ) ≤ kernelEnd then
      actionsInKernelCount rest kernelStart kernelEnd + 1
    else if (a.atMs : ℚ) > kernelEnd then 0
    else actionsInKernelCount rest kernelStart kernelEnd

/-- The number of iterations of the `do { ... } while (kernel_offset <
durationMs)` loop stepping `kernel_offset` by 5000 from 0: at least one,
and beyond that enough 5000 ms windows to cover the duration. -/
def numKernels (durationMs : ℚ) : ℕ :=
  max 1 (Int.toNat ⌈durationMs / 5000⌉)

/-- One iteration of the gradient loop, for the window starting at
`k * 5000`: the count (guarded by `kernel_offset < last->at`), the
normalization against `max_actions_in_kernel = 24.5` clamped to [0,1],
the ramp lookup, and the mark at the window's midpoint normalized by the
duration. -/
def kernelMark (actions : List FunscriptAction) (durationMs : ℚ) (k : ℕ) :
    ℚ × HeatRGB :=
  let kernelStart : ℚ := k * 5000
  let kernelEnd : ℚ := kernelStart + 5000
  let actionsInKernel : ℕ :=
    if kernelStart < (lastActionAt actions : ℚ) then
      actionsInKernelCount actions kernelStart kernelEnd
    else 0
  let actionsRelToMax := clamp01 ((actionsInKernel : ℚ) / (49/2))
  ((kernelStart + 2500) / durationMs, computeColorAt actionsRelToMax)

/-- `OpenFunscripter::UpdateTimelineGradient`: clears the gradient, adds
black marks at 0 and 1, returns if the action sequence is empty, and
otherwise adds one mark per 5000 ms window. -/
def UpdateTimelineGradient (actions : List FunscriptAction) (durationMs : ℚ) :
    List (ℚ × HeatRGB) :=
  let base : List (ℚ × HeatRGB) := [(0, (0, 0, 0)), (1, (0, 0, 0))]
  if actions.length = 0 then base
  else base ++ (List.range (numKernels durationMs)).map (kernelMark actions durationMs)

/-- The claim's reading of one window's mark: the count is the number of
actions whose `at` lies in the (closed) window, with no guard. -/
def claimKernelMark (actions : List FunscriptAction) (durationMs : ℚ) (k : ℕ) :
    ℚ × HeatRGB :=
  let kernelStart : ℚ := k * 5000
  let kernelEnd : ℚ := kernelStart + 5000
  let actionsInKernel : ℕ :=
    actions.countP (fun a => decide (kernelStart ≤ (a.atMs : ℚ) ∧ (a.atMs : ℚ) ≤ kernelEnd))
  let actionsRelToMax := clamp01 ((actionsInKernel : ℚ) / (49/2))
  ((kernelStart + 2500) / durationMs, computeColorAt actionsRelToMax)

/-- The claim's reading of the whole gradient. -/
def claimTimelineGradient (actions : List FunscriptAction) (durationMs : ℚ) :
    List (ℚ × HeatRGB) :=
  let base : List (ℚ × HeatRGB) := [(0, (0, 0, 0)), (1, (0, 0, 0))]
  if actions.length = 0 then base
  else base ++ (List.range (numKernels durationMs)).map (claimKernelMark actions durationMs)

/-- The amended reading of one window's mark: as the claim says, except
that a window whose start is not strictly before the last action's
timestamp is assigned count 0. -/
def amendedKernelMark (actions : List FunscriptAction) (durationMs : ℚ) (k : ℕ) :
    ℚ × HeatRGB :=
  let kernelStart : ℚ := k * 5000
  let kernelEnd : ℚ := kernelStart + 5000
  let actionsInKernel : ℕ :=
    if kernelStart < (lastActionAt actions : ℚ) then
      actions.countP (fun a => decide (kernelStart ≤ (a.atMs : ℚ) ∧ (a.atMs : ℚ) ≤ kernelEnd))
    else 0
  let actionsRelToMax := clamp01 ((actionsInKernel : ℚ) / (49/2))
  ((kernelStart + 2500) / durationMs, computeColorAt actionsRelToMax)

/-- The amended reading of the whole gradient. -/
def amendedTimelineGradient (actions : List FunscriptAction) (durationMs : ℚ) :
    List (ℚ × HeatRGB) :=
  let base : List (ℚ × HeatRGB) := [(0, (0, 0, 0)), (1, (0, 0, 0))]
  if actions.length = 0 then base
  else base ++ (List.range (numKernels durationMs)).map (amendedKernelMark actions durationMs)


/-!  Helper lemmas about serializing and deserializing the Timeline. -/

theorem serialize_action (a : FunscriptAction) :
    SerializeFunscriptAction a
      = (.obj [("at", .num a.atMs), ("pos", .num a.pos)], true) := rfl

theorem serialize_actionSeq (l : List FunscriptAction) :
    ∀ acc : List Json,
      serializeContainerItems SerializeFunscriptAction l acc
        = (acc ++ l.map (fun a => Json.obj [("at", .num a.atMs), ("pos", .num a.pos)]),
            true) := by
  induction l with
  | nil => intro acc; simp [serializeContainerItems]
  | cons a rest ih =>
    intro acc
    simp [serializeContainerItems, serialize_action, ih]

theorem deserialize_action (x p : Int) :
    DeserializeFunscriptAction defaultFunscriptAction
        (Json.obj [("at", .num x), ("pos", .num p)])
      = .ok (⟨x, p⟩, true, []) := rfl

theorem deserialize_actionSeq (l : List FunscriptAction) :
    ∀ acc : List FunscriptAction,
      deserializeContainerItemsVec defaultFunscriptAction DeserializeFunscriptAction acc
          (l.map (fun a => Json.obj [("at", .num a.atMs), ("pos", .num a.pos)]))
        = .ok (acc ++ l, true, []) := by
  induction l with
  | nil => intro acc; simp [deserializeContainerItemsVec]
  | cons a rest ih =>
    intro acc
    simp [deserializeContainerItemsVec, deserialize_action, ih]

/-- C1: serializing a valid Timeline with `Serializer::Serialize` and
deserializing the resulting document with `Serializer::Deserialize` into a
default-constructed value (empty action sequence) reproduces the action
sequence exactly (and the deserialization succeeds with no warnings). -/
theorem c1_timeline_roundtrip (actions : List FunscriptAction)
    (h : ValidTimeline actions) :
    DeserializeTimeline [] (SerializeTimeline actions).1
      = .ok (actions, true, []) := by
  have hs : SerializeTimeline actions
      = (.obj [("actions", .arr (actions.map (fun a =>
          Json.obj [("at", .num a.atMs), ("pos", .num a.pos)])))], true) := by
    simp [SerializeTimeline, serializeObject, SerializeActionVec, serialize_actionSeq]
  rw [hs]
  simp [DeserializeTimeline, deserializeObject, deserializeMember, DeserializeActionVec,
    jsonContains, jsonAt, jsonElements, deserialize_actionSeq]

/-- Witness for C1 at a concrete valid two-action Timeline. -/
theorem c1_timeline_roundtrip_witness :
    ValidTimeline [⟨100, 50⟩, ⟨200, 80⟩] ∧
      DeserializeTimeline [] (SerializeTimeline [⟨100, 50⟩, ⟨200, 80⟩]).1
        = .ok ([⟨100, 50⟩, ⟨200, 80⟩], true, []) :=
  ⟨by decide, c1_timeline_roundtrip [⟨100, 50⟩, ⟨200, 80⟩] (by decide)⟩

/-- C2: `Serializer::Deserialize` does not contain every data-shape
problem: a JSON string where an `int32_t` member is expected makes
`json.get<int32_t>()` throw `nlohmann::json::type_error` inside the
`noexcept` deserializer, i.e. `std::terminate` — the crash fault — instead
of returning false. -/
theorem c2_scalar_mismatch_terminates :
    deserializeObject [("x", DeserializeInt)] [0] (.obj [("x", .str "oops")])
      = .error .typeMismatch := rfl

/-- C5: a member marked `serializeEnum` is serialized as its underlying
integer (not a name), and deserialization reads the integer back and casts
it to the enum with no validation — here `n` is not among the declared
enumerators and the deserialization still succeeds with value `n`. -/
theorem c5_enum_underlying (name : String) (decl : List Int) (i n : Int)
    (hn : n ∉ decl) :
    serializeObject [(name, serializeEnumMember)] i = ([(name, .num i)], true)
      ∧ deserializeObject [(name, deserializeEnumMember)] [i]
          (.obj [(name, .num n)])
        = .ok ([n], true, []) := by
  constructor
  · rfl
  · simp [deserializeObject, deserializeMember, jsonContains, jsonAt,
      deserializeEnumMember, DeserializeInt, getIntJson]

/-- Witness for C5: a three-enumerator enum, stored value 1, document
value 7 (not a declared enumerator). -/
theorem c5_enum_underlying_witness :
    (7 : Int) ∉ ([0, 1, 2] : List Int) ∧
      (serializeObject [("mode", serializeEnumMember)] 1 = ([("mode", .num 1)], true)
        ∧ deserializeObject [("mode", deserializeEnumMember)] [1]
            (.obj [("mode", .num 7)])
          = .ok ([7], true, [])) :=
  ⟨by decide, c5_enum_underlying "mode" [0, 1, 2] 1 7 (by decide)⟩

/-- The `std::array` deserialization loop, started at write index `idx`,
hits the out-of-bounds branch whenever the json array is longer than the
remaining slots and every element deserializes successfully. -/
theorem arr_loop_oob {α : Type} (deserializeItem : α → Json → DeserRes α) :
    ∀ (jsonItems : List Json) (obj : List α) (idx : Nat),
      idx ≤ obj.length → obj.length - idx < jsonItems.length →
      (∀ j ∈ jsonItems, ∀ v : α, ∃ v' w, deserializeItem v j = .ok (v', true, w)) →
      deserializeContainerItemsArr deserializeItem obj idx jsonItems
        = .error .oobWrite := by
  intro jsonItems
  induction jsonItems with
  | nil => intro obj idx _ hlen _; simp at hlen
  | cons j rest ih =>
    intro obj idx hidx hlen hok
    simp only [List.length_cons] at hlen
    by_cases h : idx < obj.length
    · obtain ⟨v', w, heq⟩ := hok j (by simp) (obj.get ⟨idx, h⟩)
      rw [deserializeContainerItemsArr, dif_pos h, heq]
      simp [ih (obj.set idx v') (idx + 1) (by simp; omega) (by simp; omega)
        (fun j hj v => hok j (by simp [hj]) v)]
    · rw [deserializeContainerItemsArr, dif_neg h]

/-- C9 (amended): when `Serializer::Deserialize` targets a fixed-size
`std::array` member and the source JSON array has more elements than the
destination's size, provided each element deserializes successfully, the
unchecked incrementing write index runs past the end of the destination —
the out-of-bounds branch of array indexing is reached. -/
theorem c9_array_oob_write {α : Type} (deserializeItem : α → Json → DeserRes α)
    (obj : List α) (jsonItems : List Json)
    (hlen : obj.length < jsonItems.length)
    (hok : ∀ j ∈ jsonItems, ∀ v : α, ∃ v' w, deserializeItem v j = .ok (v', true, w)) :
    deserializeContainerItemsArr deserializeItem obj 0 jsonItems
      = .error .oobWrite :=
  arr_loop_oob deserializeItem jsonItems obj 0 (Nat.zero_le _) (by omega) hok

/-- Witness for C9: a one-slot `std::array<int32_t, 1>` destination and a
two-element numeric source array reach the out-of-bounds write. -/
theorem c9_array_oob_write_witness :
    ([0] : List Int).length < ([Json.num 1, Json.num 2] : List Json).length ∧
      deserializeContainerItemsArr DeserializeInt [0] 0 [.num 1, .num 2]
        = .error .oobWrite := by
  refine ⟨by decide, c9_array_oob_write DeserializeInt [0] [.num 1, .num 2] (by decide) ?_⟩
  intro j hj v
  simp only [List.mem_cons, List.mem_singleton, List.not_mem_nil, or_false] at hj
  rcases hj with h | h
  · subst h
    exact ⟨1, [], rfl⟩
  · subst h
    exact ⟨2, [], rfl⟩

/-- Counterexample to C9 as stated: a source array longer than the
destination whose first element is a type mismatch terminates on the
mismatch before the write index ever leaves the array — the out-of-bounds
branch is not reached for every longer source array. -/
theorem c9_array_oob_counterexample :
    ([0] : List Int).length
        < ([Json.str "oops", Json.num 1, Json.num 2] : List Json).length ∧
      deserializeContainerItemsArr DeserializeInt [0] 0 [.str "oops", .num 1, .num 2]
        = .error .typeMismatch ∧
      Fault.typeMismatch ≠ Fault.oobWrite :=
  ⟨by decide, rfl, by decide⟩

/-- C10: whenever the `std::vector` deserialization loop returns, the
destination's prior elements are retained as a prefix (the vector is never
cleared) and the deserialized elements follow them — one per source
element on success. -/
theorem c10_vec_append {α : Type} (defaultItem : α)
    (deserializeItem : α → Json → DeserRes α) (obj : List α)
    (jsonItems : List Json) (out : List α) (b : Bool) (ws : List String)
    (h : deserializeContainerItemsVec defaultItem deserializeItem obj jsonItems
        = .ok (out, b, ws)) :
    ∃ news, out = obj ++ news ∧ (b = true → news.length = jsonItems.length) := by
  induction jsonItems generalizing obj out b ws with
  | nil =>
    rw [deserializeContainerItemsVec] at h
    simp only [Except.ok.injEq, Prod.mk.injEq] at h
    exact ⟨[], by simp [← h.1], fun _ => rfl⟩
  | cons j rest ih =>
    rw [deserializeContainerItemsVec] at h
    cases hd : deserializeItem defaultItem j with
    | error f => rw [hd] at h; simp at h
    | ok r =>
      rw [hd] at h
      simp only [] at h
      by_cases hb : r.2.1 = true
      · rw [if_pos hb] at h
        cases hrec : deserializeContainerItemsVec defaultItem deserializeItem
            (obj ++ [r.1]) rest with
        | error f => rw [hrec] at h; simp at h
        | ok tail =>
          rw [hrec] at h
          simp only [Except.ok.injEq, Prod.mk.injEq] at h
          obtain ⟨news', hout, hlen⟩ :=
            ih (obj ++ [r.1]) tail.1 tail.2.1 tail.2.2 (by rw [hrec])
          refine ⟨r.1 :: news', ?_, ?_⟩
          · rw [← h.1, hout]; simp
          · intro hbt
            have : tail.2.1 = true := by rw [h.2.1]; exact hbt
            simp [hlen this]
      · rw [if_neg hb] at h
        simp only [Except.ok.injEq, Prod.mk.injEq] at h
        refine ⟨[r.1], by rw [← h.1], ?_⟩
        intro hbt
        rw [← h.2.1] at hbt
        simp at hbt

/-- Witness for C10 at a non-empty destination vector: the prior element 7
is retained and the deserialized element follows it. -/
theorem c10_vec_append_witness :
    deserializeContainerItemsVec 0 DeserializeInt [7] [Json.num 1]
        = .ok ([7, 1], true, []) ∧
      ∃ news, ([7, 1] : List Int) = [7] ++ news ∧
        (true = true → news.length = ([Json.num 1] : List Json).length) :=
  ⟨rfl, c10_vec_append 0 DeserializeInt [7] [.num 1] [7, 1] true [] rfl⟩

/-- A member whose display name is absent from the json object keeps its
current value, logs the field-not-found warning, and counts as success. -/
theorem deserializeMember_absent {μ : Type} (name : String)
    (deserMember : μ → Json → DeserRes μ) (v : μ) (json : Json)
    (h : jsonContains json name = false) :
    deserializeMember name deserMember v json
      = .ok (v, true, [fieldNotFoundWarning name]) := by
  simp [deserializeMember, h]

/-- C3: when every member whose display-name key is present deserializes
successfully, `deserializeObject` returns success (true); each member
whose key is absent keeps its current (default-constructed) value, its
warning is surfaced to the log, and the remaining members are still
deserialized (the output covers the whole member list). -/
theorem c3_absent_keys {μ : Type}
    (fields : List (String × (μ → Json → DeserRes μ))) (vals : List μ) (json : Json)
    (hlen : fields.length = vals.length)
    (hpresent : ∀ p ∈ fields.zip vals, jsonContains json p.1.1 = true →
      ∃ v' w, deserializeMember p.1.1 p.1.2 p.2 json = .ok (v', true, w)) :
    ∃ vals' ws, deserializeObject fields vals json = .ok (vals', true, ws)
      ∧ List.Forall₂ (fun (p : (String × (μ → Json → DeserRes μ)) × μ) (v' : μ) =>
          jsonContains json p.1.1 = false → v' = p.2) (fields.zip vals) vals'
      ∧ ∀ p ∈ fields.zip vals, jsonContains json p.1.1 = false →
          fieldNotFoundWarning p.1.1 ∈ ws := by
  induction fields generalizing vals with
  | nil =>
    exact ⟨[], [], by simp [deserializeObject], by simp, by simp⟩
  | cons f fs ih =>
    cases vals with
    | nil => simp at hlen
    | cons v vs =>
      obtain ⟨name, deserM⟩ := f
      simp only [List.length_cons, Nat.succ.injEq] at hlen
      have hmem : ∃ v' w, deserializeMember name deserM v json = .ok (v', true, w)
          ∧ (jsonContains json name = false →
              v' = v ∧ w = [fieldNotFoundWarning name]) := by
        by_cases hc : jsonContains json name = true
        · obtain ⟨v', w, heq⟩ := hpresent ((name, deserM), v) (by simp) hc
          exact ⟨v', w, heq, fun hfalse => by rw [hc] at hfalse; cases hfalse⟩
        · have hc' : jsonContains json name = false := by
            cases hcc : jsonContains json name
            · rfl
            · exact absurd hcc hc
          exact ⟨v, [fieldNotFoundWarning name],
            deserializeMember_absent name deserM v json hc', fun _ => ⟨rfl, rfl⟩⟩
      obtain ⟨v', w, heq, habsent⟩ := hmem
      obtain ⟨vals'', ws'', hrec, hforall, hwarn⟩ := ih vs hlen
        (fun p hp hc => hpresent p (by simp [hp]) hc)
      refine ⟨v' :: vals'', w ++ ws'', ?_, ?_, ?_⟩
      · rw [deserializeObject, heq, hrec]; simp
      · exact List.Forall₂.cons (fun hfalse => (habsent hfalse).1) hforall
      · intro p hp hfalse
        simp only [List.zip_cons_cons, List.mem_cons] at hp
        rcases hp with hp | hp
        · subst hp
          simp [(habsent hfalse).2]
        · simp [hwarn p hp hfalse]

/-- Witness for C3: target with int members "a" and "b", document
containing only "a"; deserialization succeeds, "b" keeps its default and
its warning is logged. -/
theorem c3_absent_keys_witness :
    ([("a", DeserializeInt), ("b", DeserializeInt)]
        : List (String × (Int → Json → DeserRes Int))).length
        = ([0, 0] : List Int).length ∧
      ∃ vals' ws,
        deserializeObject [("a", DeserializeInt), ("b", DeserializeInt)] [0, 0]
            (.obj [("a", .num 5)])
          = .ok (vals', true, ws)
        ∧ List.Forall₂ (fun (p : (String × (Int → Json → DeserRes Int)) × Int) (v' : Int) =>
            jsonContains (.obj [("a", .num 5)]) p.1.1 = false → v' = p.2)
            ([("a", DeserializeInt), ("b", DeserializeInt)].zip [0, 0]) vals'
        ∧ ∀ p ∈ [("a", DeserializeInt), ("b", DeserializeInt)].zip [(0 : Int), 0],
            jsonContains (.obj [("a", .num 5)]) p.1.1 = false →
              fieldNotFoundWarning p.1.1 ∈ ws := by
  refine ⟨rfl, c3_absent_keys [("a", DeserializeInt), ("b", DeserializeInt)] [0, 0]
    (.obj [("a", .num 5)]) rfl ?_⟩
  intro p hp hc
  simp only [List.zip_cons_cons, List.zip_nil_right, List.mem_cons,
    List.not_mem_nil, or_false] at hp
  rcases hp with hp | hp
  · subst hp
    exact ⟨5, [], rfl⟩
  · subst hp
    simp [jsonContains] at hc

/-- The member loop writes every member and aggregates success: the
output document covers the whole member list, and the flag is true exactly
when every member serializer succeeded. -/
theorem serializeObject_total {β : Type} (members : List (String × (β → Json × Bool)))
    (o : β) :
    (serializeObject members o).1.length = members.length ∧
      ((serializeObject members o).2 = true ↔ ∀ m ∈ members, (m.2 o).2 = true) := by
  induction members with
  | nil => simp [serializeObject]
  | cons m rest ih =>
    obtain ⟨name, ser⟩ := m
    simp [serializeObject, ih.1, ih.2, Bool.and_eq_true]

/-- When some element fails to serialize, the container loop returns
false and its output stops right after the first failing element. -/
theorem serializeContainerItems_stops {α : Type} (si : α → Json × Bool) :
    ∀ (c : List α) (acc : List Json), (∃ x ∈ c, (si x).2 = false) →
      (serializeContainerItems si c acc).2 = false ∧
        (serializeContainerItems si c acc).1.length
          = acc.length + (c.takeWhile (fun x => (si x).2)).length + 1 := by
  intro c
  induction c with
  | nil => simp
  | cons x rest ih =>
    intro acc hex
    by_cases hx : (si x).2 = false
    · rw [serializeContainerItems]
      simp [hx, List.takeWhile_cons]
    · have hxt : (si x).2 = true := by
        cases h : (si x).2
        · exact absurd h hx
        · rfl
      have hex' : ∃ y ∈ rest, (si y).2 = false := by
        rcases hex with ⟨y, hy, hyf⟩
        rcases List.mem_cons.1 hy with rfl | hy'
        · exact absurd hyf (by simp [hxt])
        · exact ⟨y, hy', hyf⟩
      rw [serializeContainerItems]
      have := ih (acc ++ [(si x).1]) hex'
      simp [hxt, List.takeWhile_cons, this.1, this.2]
      omega

/-- Counterexample to C4 as stated: with a failing element serializer the
container loop does not attempt every remaining element — on a two-element
container whose serializer fails, only one element is emplaced. -/
theorem c4_serialize_counterexample :
    ¬ (∀ (serializeItem : Nat → Json × Bool) (container : List Nat),
        (serializeContainerItems serializeItem container []).1.length
          = container.length) := by
  intro hall
  have := hall (fun _ => (Json.null, false)) [0, 0]
  simp [serializeContainerItems] at this

/-- C4 (amended): serialization aggregates failure at the object level —
every member is attempted and written, and the flag is false iff some
member failed — but inside a vector or fixed-size array member the element
loop stops at the first failing element: the partial document contains
exactly the elements up to and including the first failure, and the
remaining elements are not attempted. -/
theorem c4_serialize_aggregation {α β : Type}
    (members : List (String × (β → Json × Bool))) (o : β)
    (si : α → Json × Bool) (c : List α)
    (hfail : ∃ x ∈ c, (si x).2 = false) :
    ((serializeObject members o).1.length = members.length ∧
      ((serializeObject members o).2 = true ↔ ∀ m ∈ members, (m.2 o).2 = true)) ∧
    ((serializeContainerItems si c []).2 = false ∧
      (serializeContainerItems si c []).1.length
        = (c.takeWhile (fun x => (si x).2)).length + 1) := by
  refine ⟨serializeObject_total members o, ?_⟩
  have := serializeContainerItems_stops si c [] hfail
  simpa using this

/-- Witness for C4 at a two-member object and a three-element container
whose serializer fails from the second element on. -/
theorem c4_serialize_aggregation_witness :
    (∃ x ∈ ([0, 1, 2] : List Nat),
        ((fun n => if n = 0 then (Json.num 0, true) else (Json.null, false)) x).2 = false) ∧
    (((serializeObject
          [("m", fun _ => (Json.null, false)), ("k", fun _ => (Json.num 1, true))]
          ()).1.length = 2 ∧
        ((serializeObject
            [("m", fun _ => (Json.null, false)), ("k", fun _ => (Json.num 1, true))]
            ()).2 = true ↔
          ∀ m ∈ [("m", fun (_ : Unit) => (Json.null, false)),
              ("k", fun _ => (Json.num 1, true))], (m.2 ()).2 = true)) ∧
      ((serializeContainerItems
          (fun n => if n = 0 then (Json.num 0, true) else (Json.null, false))
          [0, 1, 2] []).2 = false ∧
        (serializeContainerItems
            (fun n => if n = 0 then (Json.num 0, true) else (Json.null, false))
            [0, 1, 2] []).1.length
          = (([0, 1, 2] : List Nat).takeWhile
              (fun n => ((fun n => if n = 0 then (Json.num 0, true)
                else (Json.null, false)) n).2)).length + 1)) :=
  ⟨⟨1, by simp, rfl⟩,
    c4_serialize_aggregation
      [("m", fun _ => (Json.null, false)), ("k", fun _ => (Json.num 1, true))] ()
      (fun n => if n = 0 then (Json.num 0, true) else (Json.null, false))
      [0, 1, 2] ⟨1, by simp, rfl⟩⟩

/-- A trace that starts with a Snapshot satisfies the pre-state
discipline outright. -/
theorem snapshotBeforeMutation_cons_snapshot (label : String) (rest : List ShellEvent) :
    snapshotBeforeMutation (.snapshot label :: rest) := by
  intro i hi hm
  match i with
  | 0 => simp [isMutationEvt] at hm
  | k + 1 => exact ⟨0, Nat.zero_lt_succ k, rfl⟩

/-- C6: every shell operation that mutates the Timeline's action sequence
(both removeAction overloads, addEditAction, cutSelection, pasteSelection,
and the four move-selection key bindings) issues an
`undoRedoSystem.Snapshot` before any mutation event in its trace, for
every selection state, hit-test result, and clipboard content. -/
theorem c6_snapshot_before_mutation (hasSelection : Bool)
    (actionAtTime : Option FunscriptAction)
    (copiedSelection : List FunscriptAction) :
    snapshotBeforeMutation removeActionExplicitTrace ∧
    snapshotBeforeMutation (removeActionTrace hasSelection actionAtTime) ∧
    snapshotBeforeMutation addEditActionTrace ∧
    snapshotBeforeMutation (cutSelectionTrace hasSelection) ∧
    snapshotBeforeMutation (pasteSelectionTrace copiedSelection) ∧
    snapshotBeforeMutation moveSelectionLeftTrace ∧
    snapshotBeforeMutation moveSelectionRightTrace ∧
    snapshotBeforeMutation moveSelectionUpTrace ∧
    snapshotBeforeMutation moveSelectionDownTrace := by
  refine ⟨by decide, ?_, by decide, ?_, ?_, by decide, by decide, by decide, by decide⟩
  · cases hasSelection
    · cases actionAtTime with
      | none => decide
      | some a => exact (by decide : snapshotBeforeMutation removeActionExplicitTrace)
    · exact (by decide : snapshotBeforeMutation
        [.snapshot "Removed selection", .mutate .removeSelectedActions])
  · cases hasSelection <;> decide
  · cases copiedSelection with
    | nil => decide
    | cons a rest =>
      show snapshotBeforeMutation
        (.snapshot "Paste copied actions" ::
          ((a :: rest).map (fun _ => ShellEvent.mutate .pasteAction) ++ [.other]))
      exact snapshotBeforeMutation_cons_snapshot _ _

/-- C8: `openFunscript` always leaves both undo/redo stacks empty, the
live Timeline holds only what the load produced (nothing of the previous
document), and when the file does not exist the result is exactly the
fresh empty state with a false return — history never survives across
loaded documents. -/
theorem c8_open_clears_history (s : AppState) (fileExists : Bool)
    (openResult : Bool × List FunscriptAction) :
    (openFunscript s fileExists openResult).1.undoStack = [] ∧
    (openFunscript s fileExists openResult).1.redoStack = [] ∧
    (openFunscript s fileExists openResult).1.loadedFunscript
      = (if fileExists then openResult.2 else []) ∧
    openFunscript s false openResult
      = ({ loadedFunscript := [], undoStack := [], redoStack := [] }, false) := by
  cases fileExists <;> simp [openFunscript, ClearHistory]

/-!  Evaluation lemmas for the gradient at the concrete counterexample. -/

theorem numKernels_12000 : numKernels 12000 = 3 := by
  unfold numKernels
  rw [show (⌈(12000 : ℚ) / 5000⌉ : ℤ) = 3 by rw [Int.ceil_eq_iff]; norm_num]
  decide

theorem kernelMark_k2 :
    kernelMark [⟨10000, 50⟩] 12000 2 = (12500 / 12000, computeColorAt 0) := by
  unfold kernelMark lastActionAt actionsInKernelCount clamp01
  norm_num

theorem claimKernelMark_k2 :
    claimKernelMark [⟨10000, 50⟩] 12000 2 = (12500 / 12000, computeColorAt (2/49)) := by
  unfold claimKernelMark clamp01
  norm_num [List.countP_cons]

theorem computeColorAt_third_zero : (computeColorAt 0).2.2 = 0 := by
  unfold computeColorAt lerpColor heatColor
  norm_num

theorem computeColorAt_third_2_49 : (computeColorAt (2/49)).2.2 = 10/49 := by
  simp only [computeColorAt]
  rw [min_eq_right (by norm_num : (2/49 : ℚ) ≤ 1),
    max_eq_right (by norm_num : (0 : ℚ) ≤ 2/49),
    show (⌊(2/49 : ℚ) * 5⌋ : ℤ) = 0 by rw [Int.floor_eq_iff]; norm_num]
  norm_num [heatColor, lerpColor]

/-- Counterexample to C7 as stated: one action at 10000 ms, duration
12000 ms.  The third 5000 ms window `[10000, 15000]` contains the action,
but the loop's `kernel_offset < last->at` guard (10000 < 10000) zeroes the
count, so the code's third mark is black while the claim's count of
actions in that window is 1 and yields a non-black ramp color. -/
theorem c7_gradient_counterexample :
    UpdateTimelineGradient [⟨10000, 50⟩] 12000
      ≠ claimTimelineGradient [⟨10000, 50⟩] 12000 := by
  intro heq
  unfold UpdateTimelineGradient claimTimelineGradient at heq
  rw [numKernels_12000] at heq
  rw [show List.range 3 = [0, 1, 2] from by decide] at heq
  simp only [List.map_cons, List.map_nil, List.length_cons, List.cons_append,
    List.nil_append, List.cons.injEq, List.length_nil, if_neg (by decide : ¬(1 = 0))] at heq
  have h2 : kernelMark [⟨10000, 50⟩] 12000 2 = claimKernelMark [⟨10000, 50⟩] 12000 2 :=
    heq.2.2.2.2.1
  rw [kernelMark_k2, claimKernelMark_k2, Prod.mk.injEq] at h2
  have h3 : (computeColorAt 0).2.2 = (computeColorAt (2/49)).2.2 :=
    congrArg (fun c : HeatRGB => c.2.2) h2.2
  rw [computeColorAt_third_zero, computeColorAt_third_2_49] at h3
  norm_num at h3

/-- On a sorted action sequence the counting loop with its early break
computes exactly the number of actions inside the closed window. -/
theorem actionsInKernelCount_sorted (ks ke : ℚ) :
    ∀ l : List FunscriptAction, List.Pairwise (fun a b => a.atMs ≤ b.atMs) l →
      actionsInKernelCount l ks ke
        = l.countP (fun a => decide (ks ≤ (a.atMs : ℚ) ∧ (a.atMs : ℚ) ≤ ke)) := by
  intro l
  induction l with
  | nil => simp [actionsInKernelCount]
  | cons a rest ih =>
    intro hp
    rw [List.pairwise_cons] at hp
    obtain ⟨ha, hrest⟩ := hp
    rw [actionsInKernelCount]
    by_cases h1 : ks ≤ (a.atMs : ℚ) ∧ (a.atMs : ℚ) ≤ ke
    · simp [h1, ih hrest, List.countP_cons]
    · by_cases h2 : (a.atMs : ℚ) > ke
      · simp only [if_neg h1, if_pos h2]
        symm
        rw [List.countP_eq_zero]
        intro b hb
        rcases List.mem_cons.1 hb with rfl | hb'
        · simpa using h1
        · have hab : b.atMs ≥ a.atMs := ha b hb'
          have hbk : (b.atMs : ℚ) > ke := lt_of_lt_of_le h2 (by exact_mod_cast hab)
          simp only [decide_eq_true_eq, not_and]
          intro _
          exact not_le.2 hbk
      · simp [h1, h2, ih hrest, List.countP_cons]

/-- One loop iteration equals the amended per-window mark on sorted
input. -/
theorem kernelMark_sorted_eq (actions : List FunscriptAction) (durationMs : ℚ)
    (hsort : List.Pairwise (fun a b => a.atMs ≤ b.atMs) actions) (k : ℕ) :
    kernelMark actions durationMs k = amendedKernelMark actions durationMs k := by
  simp only [kernelMark, amendedKernelMark]
  rw [actionsInKernelCount_sorted _ _ actions hsort]

/-- C7 (amended): for every sorted non-empty action sequence and positive
duration, `UpdateTimelineGradient` partitions the duration into 5000 ms
windows, counts the actions whose `at` lies in each closed window — except
that a window whose start is not strictly before the last action's
timestamp is assigned count 0 — normalizes the count against 24.5 clamped
to [0,1], maps it through the fixed 6-color ramp, and adds one mark at
each window's midpoint normalized by the duration. -/
theorem c7_gradient_windows (actions : List FunscriptAction) (durationMs : ℚ)
    (hsort : List.Pairwise (fun a b => a.atMs ≤ b.atMs) actions)
    (hne : actions ≠ []) (hdur : 0 < durationMs) :
    UpdateTimelineGradient actions durationMs
      = amendedTimelineGradient actions durationMs := by
  unfold UpdateTimelineGradient amendedTimelineGradient
  by_cases hlen : actions.length = 0
  · simp [hlen]
  · simp only [if_neg hlen]
    congr 1
    apply List.map_congr_left
    intro k _
    exact kernelMark_sorted_eq actions durationMs hsort k

/-- Witness for C7 at the single-action sequence and 12000 ms duration. -/
theorem c7_gradient_windows_witness :
    List.Pairwise (fun a b : FunscriptAction => a.atMs ≤ b.atMs) [⟨10000, 50⟩] ∧
      ([⟨10000, 50⟩] : List FunscriptAction) ≠ [] ∧ (0 : ℚ) < 12000 ∧
      UpdateTimelineGradient [⟨10000, 50⟩] 12000
        = amendedTimelineGradient [⟨10000, 50⟩] 12000 :=
  ⟨by decide, by decide, by norm_num,
    c7_gradient_windows [⟨10000, 50⟩] 12000 (by decide) (by decide) (by norm_num)⟩
